import Mathlib

/-!
Shallow embedding of the obsidian_vector_search indexing and retrieval core
(src/indexer.py, src/vector_db.py, src/main.py) together with theorems
checking the specification's claims about it.

Strings from the Python side are modelled as `List Char` (Python strings index
by code point).  MD5 digests (`hashlib.md5(...).hexdigest()`, used by the code
only as opaque identity / equality tokens) are modelled as environment-supplied
fingerprint functions, instantiated with injective concrete functions in the
executable scenarios.
-/

namespace ObsidianVS

/-! ## Chunker — `ObsidianIndexer._chunk_text` (src/indexer.py lines 72-99) -/

/-- ASCII portion of Python `str.strip()`'s whitespace set
(' ', '\t', '\n', '\r', '\x0b', '\x0c'). -/
def isPySpace (c : Char) : Bool :=
  c = ' ' || c = '\t' || c = '\n' || c = '\r' || c = '\x0b' || c = '\x0c'

/-- Python `s.strip()`: drop whitespace from both ends. -/
def pyStrip (l : List Char) : List Char :=
  ((l.dropWhile isPySpace).reverse.dropWhile isPySpace).reverse

/-- Python slice `text[s:e]` (with Python's clamping of out-of-range bounds). -/
def pySlice (text : List Char) (s e : Nat) : List Char :=
  (text.drop s).take (e - s)

/-- Index of the last occurrence of character `c` in `l`, if any. -/
def lastIdxOf (l : List Char) (c : Char) : Option Nat :=
  l.enum.foldl (fun acc p => if p.2 = c then some p.1 else acc) none

/-- Index of the last occurrence of the two-character pattern `c1 c2` in `l`,
if any (the pair must lie entirely inside `l`). -/
def lastIdxOfPair (l : List Char) (c1 c2 : Char) : Option Nat :=
  (l.zip l.tail).enum.foldl
    (fun acc p => if p.2.1 = c1 ∧ p.2.2 = c2 then some p.1 else acc) none

/-- Python `text.rfind(c, s, e)` for a one-character needle: highest index
`i ∈ [s, e)` with `text[i] = c`, or `-1`. -/
def pyRfindChar (text : List Char) (c : Char) (s e : Nat) : Int :=
  match lastIdxOf (pySlice text s e) c with
  | some i => ((s + i : Nat) : Int)
  | none => -1

/-- Python `text.rfind("\n\n", s, e)`: highest `i` with `s ≤ i`, `i + 2 ≤ e`
and `text[i] = text[i+1] = '\n'`, or `-1`. -/
def pyRfindNl2 (text : List Char) (s e : Nat) : Int :=
  match lastIdxOfPair (pySlice text s e) '\n' '\n' with
  | some i => ((s + i : Nat) : Int)
  | none => -1

/-- The `end` cut position computed by one iteration of the `_chunk_text`
while-loop: tentative `start + max_chunk_size`, moved back to the last
paragraph break (`"\n\n"`) or, failing that, just past the last `'.'`,
whenever the tentative end falls strictly inside the text. -/
def chunkEnd (text : List Char) (maxChunkSize start : Nat) : Nat :=
  let e := start + maxChunkSize
  if e < text.length then
    let lastPeriod := pyRfindChar text '.' start e
    let lastNewline := pyRfindNl2 text start e
    if lastNewline > (start : Int) then lastNewline.toNat
    else if lastPeriod > (start : Int) then lastPeriod.toNat + 1
    else e
  else e

/-- `start = end - overlap if end - overlap > start else end`
(src/indexer.py line 97). -/
def chunkNextStart (text : List Char) (maxChunkSize overlap start : Nat) : Nat :=
  let e := chunkEnd text maxChunkSize start
  if e - overlap > start then e - overlap else e

/-- The `_chunk_text` while-loop, fuelled: `none` means the fuel was exhausted
before the loop condition `start < len(text)` became false. -/
def chunkLoop : Nat → List Char → Nat → Nat → Nat → List (List Char) →
    Option (List (List Char))
  | 0, _, _, _, _, _ => none
  | fuel + 1, text, maxChunkSize, overlap, start, chunks =>
    if start < text.length then
      let e := chunkEnd text maxChunkSize start
      let chunk := pyStrip (pySlice text start e)
      let chunks' := if chunk.isEmpty then chunks else chunks ++ [chunk]
      chunkLoop fuel text maxChunkSize overlap
        (chunkNextStart text maxChunkSize overlap start) chunks'
    else some chunks

/-- `_chunk_text`, with the loop given `len(text) + 1` fuel — enough whenever
`max_chunk_size > 0`, since then every iteration strictly advances `start`. -/
def chunkTextF (text : List Char) (maxChunkSize overlap : Nat) :
    Option (List (List Char)) :=
  if text.length ≤ maxChunkSize then some [text]
  else chunkLoop (text.length + 1) text maxChunkSize overlap 0 []

/-- `_chunk_text(text, max_chunk_size, overlap)`. -/
def chunk_text (text : List Char) (maxChunkSize overlap : Nat) : List (List Char) :=
  (chunkTextF text maxChunkSize overlap).getD []

/-- Instrumented view of the `_chunk_text` loop: the `(start, end)` window of
every iteration, dropped or kept alike. -/
def chunkIters : Nat → List Char → Nat → Nat → Nat → Option (List (Nat × Nat))
  | 0, _, _, _, _ => none
  | fuel + 1, text, maxChunkSize, overlap, start =>
    if start < text.length then
      (chunkIters fuel text maxChunkSize overlap
          (chunkNextStart text maxChunkSize overlap start)).map
        (fun ws => (start, chunkEnd text maxChunkSize start) :: ws)
    else some []

/-- The chunk a window contributes to the output: its stripped slice, or
`none` when the stripped slice is empty and the loop drops it. -/
def keepChunk (text : List Char) (w : Nat × Nat) : Option (List Char) :=
  let c := pyStrip (pySlice text w.1 w.2)
  if c.isEmpty then none else some c

/-- The windows whose (stripped) chunk actually appears in the output. -/
def keptWindows (text : List Char) (maxChunkSize overlap : Nat) : List (Nat × Nat) :=
  ((chunkIters (text.length + 1) text maxChunkSize overlap 0).getD []).filter
    (fun w => (keepChunk text w).isSome)

/-! ## Data model — documents, store, environment

`Doc` is the dictionary built per chunk by `ObsidianIndexer._process_file`
(src/indexer.py lines 128-141); the metadata fields that the pipeline logic
reads back (`content_hash`) or fills per chunk are carried explicitly, the
purely informational ones (file size, timestamps) are omitted.  The Chroma
collection is modelled as an association list from document id to the stored
record; `upsert` overwrites by id.  -/

/-- An embedding vector (`List[float]`); `[]` encodes "embedding failed". -/
abbrev Embedding := List Float

/-- One chunk-document as assembled by `_process_file` and stored verbatim by
`VectorDatabase.add_documents`. -/
structure Doc where
  file_path : String
  content : List Char
  embedding : Embedding
  content_hash : String
  chunk_index : Nat
  total_chunks : Nat

/-- The Chroma collection: id ↦ stored record, upsert-by-id semantics. -/
abbrev Store := List (String × Doc)

/-- One hit returned by `VectorDatabase.search`. -/
structure SearchHit where
  id : String
  content : List Char
  distance : Float

/-- The external collaborators of the core, as pure functions:
* `healthy` — the outcome of `OllamaEmbeddingClient.health_check()`;
* `modelExists` — the outcome of `check_model_exists()` (only ever logged);
* `readFile` — file read; `none` models an `open`/`read` exception
  (swallowed by `_read_markdown_file`, which then returns `None`);
* `embed` — `generate_embedding`; `[]` models any transport failure
  (swallowed inside `generate_embeddings`);
* `batchFails` — whether `collection.upsert` raises for a given batch;
* `idHash` — `hashlib.md5(file_path.encode()).hexdigest()` of
  `VectorDatabase._generate_document_id`, an injective-in-practice
  fingerprint of the path string;
* `contentHash` — `_get_file_hash`'s MD5 hex digest of the file content;
* `storeQuery` — `collection.query` (Chroma's nearest-neighbour search,
  third-party code). -/
structure Env where
  healthy : Bool
  modelExists : Bool
  readFile : String → Option (List Char)
  embed : List Char → Embedding
  batchFails : List Doc → Bool
  idHash : String → String
  contentHash : List Char → String
  storeQuery : Store → Embedding → Nat → List SearchHit

/-! ## Vector store — `VectorDatabase` (src/vector_db.py) -/

/-- `VectorDatabase._generate_document_id`. -/
def generate_document_id (env : Env) (file_path : String) : String :=
  env.idHash file_path

/-- `VectorDatabase.get_document_by_path`: point lookup by the id derived
from the (bare) path; `None` when the id is absent. -/
def get_document_by_path (env : Env) (store : Store) (file_path : String) :
    Option Doc :=
  (store.find? (fun p => p.1 == generate_document_id env file_path)).map Prod.snd

/-- One id's upsert: overwrite in place if present, else append. -/
def upsertOne (store : Store) (id : String) (d : Doc) : Store :=
  if store.any (fun p => p.1 == id) then
    store.map (fun p => if p.1 == id then (id, d) else p)
  else store ++ [(id, d)]

/-- `VectorDatabase.add_documents` minus the failure case (the caller
`index_vault` handles the raised exception; see `runBatch`). -/
def add_documents (env : Env) (store : Store) (docs : List Doc) : Store :=
  docs.foldl (fun st d => upsertOne st (generate_document_id env d.file_path) d) store

/-- `VectorDatabase.delete_document`.  Chroma's `collection.delete(ids=[...])`
is a silent no-op for ids that are not present (it raises only on storage
faults), so the success branch returns `True` unconditionally — also for a
never-indexed path. -/
def delete_document (env : Env) (store : Store) (file_path : String) :
    Bool × Store :=
  let id := generate_document_id env file_path
  (true, store.filter (fun p => !(p.1 == id)))

/-! ## Indexing pipeline — `ObsidianIndexer` (src/indexer.py) -/

/-- The chunk-documents built by the second half of `_process_file`
(lines 120-146): chunk with the default `max_chunk_size=1000, overlap=200`,
embed each chunk, silently drop chunks whose embedding comes back empty, and
suffix the path with `#i` only when the file produced more than one chunk. -/
def buildDocs (env : Env) (file_path : String) (content : List Char) : List Doc :=
  let chunks := chunk_text content 1000 200
  let hash := env.contentHash content
  chunks.enum.filterMap fun p =>
    let emb := env.embed p.2
    if emb.isEmpty then none
    else some
      { file_path := if chunks.length > 1 then file_path ++ "#" ++ toString p.1 else file_path
        content := p.2
        embedding := emb
        content_hash := hash
        chunk_index := p.1
        total_chunks := chunks.length }

/-- `ObsidianIndexer._process_file`: `[]` when the read fails, when the file
is unchanged (stored hash under the bare path's id equals the fresh hash), or
when no chunk got a non-empty embedding. -/
def process_file (env : Env) (store : Store) (file_path : String) : List Doc :=
  match env.readFile file_path with
  | none => []
  | some content =>
    match get_document_by_path env store file_path with
    | some existing =>
      if existing.content_hash == env.contentHash content then []
      else buildDocs env file_path content
    | none => buildDocs env file_path content

/-- The run summary built by `index_vault`; `total_files = none` models the
early-return dictionary `{"processed": 0, "errors": 0, "skipped": 0}` that
lacks the `"total_files"` key. -/
structure RunResult where
  processed : Nat
  errors : Nat
  skipped : Nat
  total_files : Option Nat
  deriving DecidableEq

/-- Accumulator of the batch loop in `index_vault`. -/
structure BatchAcc where
  store : Store
  processed : Nat
  errors : Nat
  skipped : Nat

/-- The inner per-file loop of one batch (src/indexer.py lines 174-185):
returns the processed increment, the skipped increment and the accumulated
`batch_documents`.  Every file of the batch sees the pre-batch store (the
store is only written after the whole batch).  `process_file` cannot raise in
the model (all its failure sources are swallowed internally, matching the
source), so the `except` branch that counts a file as an error never runs. -/
def foldFiles (env : Env) (store : Store) (batch : List String) :
    Nat × Nat × List Doc :=
  batch.foldl
    (fun acc file_path =>
      let fds := process_file env store file_path
      if fds.isEmpty then (acc.1, acc.2.1 + 1, acc.2.2)
      else (acc.1 + 1, acc.2.1, acc.2.2 ++ fds))
    (0, 0, [])

/-- One batch of `index_vault` (lines 170-193): process the files, then flush
the accumulated documents; a failing `add_documents` call adds
`len(batch_documents)` to the error count and leaves the store unchanged. -/
def runBatch (env : Env) (acc : BatchAcc) (batch : List String) : BatchAcc :=
  let r := foldFiles env acc.store batch
  let batch_documents := r.2.2
  if batch_documents.isEmpty then
    { acc with processed := acc.processed + r.1, skipped := acc.skipped + r.2.1 }
  else if env.batchFails batch_documents then
    { acc with
      processed := acc.processed + r.1
      skipped := acc.skipped + r.2.1
      errors := acc.errors + batch_documents.length }
  else
    { store := add_documents env acc.store batch_documents
      processed := acc.processed + r.1
      errors := acc.errors
      skipped := acc.skipped + r.2.1 }

/-- `range(0, len(files), batch_size)` slicing, fuelled by the list length
(adequate for any positive batch size). -/
def toBatchesAux : Nat → Nat → List String → List (List String)
  | 0, _, _ => []
  | _, _, [] => []
  | fuel + 1, bs, l => l.take bs :: toBatchesAux fuel bs (l.drop bs)

/-- Split the discovered files into batches of `bs`. -/
def toBatches (bs : Nat) (l : List String) : List (List String) :=
  toBatchesAux l.length bs l

/-- `ObsidianIndexer.index_vault` (src/indexer.py lines 148-203) over an
already-discovered file list.  A failed health check raises `ConnectionError`
before anything else; a missing model is only logged (`modelExists` is read
nowhere); an empty vault returns early without the `total_files` key. -/
def index_vault (env : Env) (store : Store) (files : List String)
    (batch_size : Nat) : Except String (RunResult × Store) :=
  if env.healthy then
    if files.isEmpty then
      Except.ok ({ processed := 0, errors := 0, skipped := 0, total_files := none },
        store)
    else
      let final := (toBatches batch_size files).foldl (runBatch env)
        { store := store, processed := 0, errors := 0, skipped := 0 }
      Except.ok
        ({ processed := final.processed
           errors := final.errors
           skipped := final.skipped
           total_files := some files.length }, final.store)
  else
    Except.error "Cannot connect to Ollama server"

/-! ## Query path — `search` (src/main.py lines 121-153) -/

/-- The response body of the `/search` route. -/
structure SearchResponse where
  results : List SearchHit
  total_results : Nat
  query : List Char

/-- `VectorDatabase.search`: delegate to Chroma's `collection.query` and
reshape (a query failure is absorbed there into an empty hit list). -/
def vdb_search (env : Env) (store : Store) (query_embedding : Embedding)
    (n_results : Nat) : List SearchHit × Nat :=
  let hits := env.storeQuery store query_embedding n_results
  (hits, hits.length)

/-- The `search` route handler: embed the query; an empty embedding raises
the "Failed to generate embedding for query" HTTP error before the vector
store is ever queried. -/
def api_search (env : Env) (store : Store) (query : List Char) (limit : Nat) :
    Except String SearchResponse :=
  let query_embedding := env.embed query
  if query_embedding.isEmpty then
    Except.error "Failed to generate embedding for query"
  else
    let r := vdb_search env store query_embedding limit
    Except.ok { results := r.1, total_results := r.2, query := query }

/-! ## Concrete scenarios

Executable instantiations of the environment used to evaluate the pipeline at
the inputs the claims talk about.  The two MD5 digests are instantiated with
concrete injective functions (the identity on the path, `String.mk` on the
content), which is faithful to the code's use of MD5 as a collision-free
identity token. -/

/-- A healthy environment over a vault with a 50-character file `A.md` and an
1100-character file `B.md`; every embedding call succeeds, batch writes
succeed. -/
def envTwoFiles : Env where
  healthy := true
  modelExists := true
  readFile := fun p =>
    if p = "A.md" then some (List.replicate 50 'a')
    else if p = "B.md" then some (List.replicate 1100 'b')
    else none
  embed := fun _ => [1.0]
  batchFails := fun _ => false
  idHash := fun s => s
  contentHash := fun c => String.mk c
  storeQuery := fun _ _ _ => []

/-- First index run over the two-file vault, starting from an empty store. -/
def runOne : Except String (RunResult × Store) :=
  index_vault envTwoFiles [] ["A.md", "B.md"] 10

/-- The store persisted by the first run. -/
def storeOne : Store :=
  match runOne with
  | Except.ok r => r.2
  | Except.error _ => []

/-- Second index run over the same, unchanged vault. -/
def runTwo : Except String (RunResult × Store) :=
  index_vault envTwoFiles storeOne ["A.md", "B.md"] 10

/-- The summary of a run, forgetting the store (whose embedded `Float`s have
no decidable equality). -/
def runSummary (r : Except String (RunResult × Store)) : Option RunResult :=
  match r with
  | Except.ok p => some p.1
  | Except.error _ => none

/-- Environment in which every file read fails (models an unreadable file). -/
def envUnreadable : Env where
  healthy := true
  modelExists := true
  readFile := fun _ => none
  embed := fun _ => [1.0]
  batchFails := fun _ => false
  idHash := fun s => s
  contentHash := fun c => String.mk c
  storeQuery := fun _ _ _ => []

/-- Environment over the single 1100-character file `B.md` in which every
batch write to the vector store fails. -/
def envBatchFail : Env where
  healthy := true
  modelExists := true
  readFile := fun p => if p = "B.md" then some (List.replicate 1100 'b') else none
  embed := fun _ => [1.0]
  batchFails := fun _ => true
  idHash := fun s => s
  contentHash := fun c => String.mk c
  storeQuery := fun _ _ _ => []

/-- Environment in which every embedding call fails (returns the empty
vector). -/
def envNoEmbed : Env where
  healthy := true
  modelExists := true
  readFile := fun _ => some ("hello".toList)
  embed := fun _ => []
  batchFails := fun _ => false
  idHash := fun s => s
  contentHash := fun c => String.mk c
  storeQuery := fun _ _ _ => []

/-! ## Helper lemmas -/

/-- If every embedding call fails, `_process_file` builds no documents. -/
theorem buildDocs_eq_nil (env : Env) (file_path : String) (content : List Char)
    (h : ∀ c, env.embed c = []) : buildDocs env file_path content = [] := by
  unfold buildDocs
  refine List.filterMap_eq_nil_iff.mpr fun p _ => ?_
  simp [h p.2]

/-- A batch size of 10 puts a single file into a single batch. -/
theorem toBatches_singleton (x : String) : toBatches 10 [x] = [[x]] := by
  simp [toBatches, toBatchesAux]

/-- `index_vault` over a one-file vault whose file yields no documents:
the file is counted as skipped and the store is untouched. -/
theorem index_vault_single_nodocs (env : Env) (store : Store) (x : String)
    (hh : env.healthy = true) (h : process_file env store x = []) :
    index_vault env store [x] 10 =
      Except.ok ({ processed := 0, errors := 0, skipped := 1, total_files := some 1 },
        store) := by
  simp [index_vault, hh, toBatches_singleton, runBatch, foldFiles, h]

/-! ## Chunker lemmas -/

/-- Invariant of the last-index fold: if the accumulator only ever holds
indices satisfying `P` and every pair in the list has a first component
satisfying `P`, then so does the result. -/
theorem foldl_lastIdx_inv {α : Type} (cond : Nat × α → Prop) [DecidablePred cond]
    (P : Nat → Prop) :
    ∀ (l : List (Nat × α)) (acc : Option Nat),
      (∀ j, acc = some j → P j) → (∀ p ∈ l, P p.1) →
      ∀ i, l.foldl (fun a p => if cond p then some p.1 else a) acc = some i → P i := by
  intro l
  induction l with
  | nil => exact fun acc hacc _ i h => hacc i h
  | cons p l ih =>
    intro acc hacc hmem i h
    rw [List.foldl_cons] at h
    refine ih _ ?_ (fun q hq => hmem q (List.mem_cons_of_mem _ hq)) i h
    intro j hj
    by_cases hc : cond p
    · rw [if_pos hc] at hj
      injection hj with hj
      rw [← hj]
      exact hmem p (List.mem_cons_self _ _)
    · rw [if_neg hc] at hj
      exact hacc j hj

/-- A found last index is an index into the list. -/
theorem lastIdxOf_lt_length {l : List Char} {c : Char} {i : Nat}
    (h : lastIdxOf l c = some i) : i < l.length := by
  unfold lastIdxOf at h
  exact foldl_lastIdx_inv (fun p : Nat × Char => p.2 = c) (fun j => j < l.length)
    l.enum none (fun j hj => by cases hj)
    (fun p hp => List.fst_lt_of_mem_enum hp) i h

/-- A found last pair index leaves room for both characters. -/
theorem lastIdxOfPair_lt {l : List Char} {c1 c2 : Char} {i : Nat}
    (h : lastIdxOfPair l c1 c2 = some i) : i + 1 < l.length := by
  unfold lastIdxOfPair at h
  refine foldl_lastIdx_inv (fun p : Nat × (Char × Char) => p.2.1 = c1 ∧ p.2.2 = c2)
    (fun j => j + 1 < l.length) (l.zip l.tail).enum none (fun j hj => by cases hj)
    (fun p hp => ?_) i h
  have h1 := List.fst_lt_of_mem_enum hp
  rw [List.length_zip, List.length_tail] at h1
  omega

/-- Python `rfind` of a character never reports a position at or past the
slice end. -/
theorem pyRfindChar_lt (text : List Char) (c : Char) (s e : Nat) :
    pyRfindChar text c s e < (e : Int) := by
  unfold pyRfindChar
  split
  next i heq =>
    have hi := lastIdxOf_lt_length heq
    have hle : (pySlice text s e).length ≤ e - s := by
      simp [pySlice, List.length_take_le]
    omega
  next => omega

/-- Python `rfind` of `"\n\n"` never reports a position at or past the slice
end. -/
theorem pyRfindNl2_lt (text : List Char) (s e : Nat) :
    pyRfindNl2 text s e < (e : Int) := by
  unfold pyRfindNl2
  split
  next i heq =>
    have hi := lastIdxOfPair_lt heq
    have hle : (pySlice text s e).length ≤ e - s := by
      simp [pySlice, List.length_take_le]
    omega
  next => omega

/-- The cut never reaches past the tentative `start + maxChunkSize`. -/
theorem chunkEnd_le (text : List Char) (m start : Nat) :
    chunkEnd text m start ≤ start + m := by
  have h1 := pyRfindNl2_lt text start (start + m)
  have h2 := pyRfindChar_lt text '.' start (start + m)
  simp only [chunkEnd]
  split
  · split
    · omega
    · split
      · omega
      · omega
  · omega

/-- The cut always lies strictly past the current start (for a positive
chunk size). -/
theorem lt_chunkEnd (text : List Char) (m start : Nat) (hm : 0 < m) :
    start < chunkEnd text m start := by
  simp only [chunkEnd]
  split
  · split
    · omega
    · split
      · omega
      · omega
  · omega

/-- Strict forward progress of the loop variable (for a positive chunk
size): the next start always advances past the current one. -/
theorem lt_chunkNextStart (text : List Char) (m o start : Nat) (hm : 0 < m) :
    start < chunkNextStart text m o start := by
  have h := lt_chunkEnd text m start hm
  simp only [chunkNextStart]
  split
  · omega
  · omega

/-- The next start never skips past the current cut. -/
theorem chunkNextStart_le (text : List Char) (m o start : Nat) :
    chunkNextStart text m o start ≤ chunkEnd text m start := by
  simp only [chunkNextStart]
  split
  · omega
  · omega

/-- The fuelled chunking loop finishes within any fuel exceeding the
remaining character count. -/
theorem chunkLoop_isSome (text : List Char) (m o : Nat) (hm : 0 < m) :
    ∀ (fuel start : Nat) (acc : List (List Char)),
      text.length - start < fuel →
      (chunkLoop fuel text m o start acc).isSome = true := by
  intro fuel
  induction fuel with
  | zero => intro start acc h; omega
  | succ n ih =>
    intro start acc h
    simp only [chunkLoop]
    split
    next hlt =>
      refine ih _ _ ?_
      have := lt_chunkNextStart text m o start hm
      omega
    next => rfl

/-- `_chunk_text` always completes within its fuel when the chunk size is
positive. -/
theorem chunkTextF_isSome (text : List Char) (m o : Nat) (hm : 0 < m) :
    (chunkTextF text m o).isSome = true := by
  unfold chunkTextF
  split
  · rfl
  · exact chunkLoop_isSome text m o hm _ 0 [] (by omega)

set_option maxRecDepth 40000

/-! ## Claim C1 -/

/-- C1: evaluation of the code at the claim's scenario (a vault with one
small file and one multi-chunk file, indexed twice without changes).  The
second run yields `processed = 1, skipped = 1`, not `processed = 0,
skipped = 2` as claimed: the multi-chunk file's documents are stored only
under the ids derived from `"B.md#0"`, `"B.md#1"`, while change detection
looks up the id derived from the bare `"B.md"`, finds nothing, and
re-processes the unchanged file on every run. -/
theorem second_run_reprocesses_multichunk_file :
    runSummary runOne =
      some { processed := 2, errors := 0, skipped := 0, total_files := some 2 } ∧
    runSummary runTwo =
      some { processed := 1, errors := 0, skipped := 1, total_files := some 2 } ∧
    storeOne.map Prod.fst = ["A.md", "B.md#0", "B.md#1"] := by
  refine ⟨by decide, by decide, by decide⟩

/-! ## Claim C2 -/

/-- C2 counterexample: a vault with a single unreadable file.  The run counts
it as skipped (`skipped = 1`), with `errors = 0` — contradicting the claim
that an unreadable file increments `errors` and is never counted as skipped.
-/
theorem unreadable_file_counted_as_skipped :
    runSummary (index_vault envUnreadable [] ["X.md"] 10) =
      some { processed := 0, errors := 0, skipped := 1, total_files := some 1 } ∧
    (runSummary (index_vault envUnreadable [] ["X.md"] 10)).map RunResult.skipped
      ≠ some 0 := by
  refine ⟨by decide, by decide⟩

/-- C2 (amended): a file that yields no documents — because its read failed,
or because every chunk's embedding came back empty, or because it was
unchanged — is counted as `skipped`, never as `processed` and never as an
error; the `errors` count is untouched by it. -/
theorem zero_doc_file_counted_skipped (env : Env) (store : Store)
    (file_path : String) (hh : env.healthy = true) :
    (env.readFile file_path = none → process_file env store file_path = []) ∧
    ((∀ c, env.embed c = []) → process_file env store file_path = []) ∧
    (process_file env store file_path = [] →
      index_vault env store [file_path] 10 =
        Except.ok ({ processed := 0, errors := 0, skipped := 1, total_files := some 1 },
          store)) := by
  refine ⟨fun h => ?_, fun h => ?_, fun h => index_vault_single_nodocs _ _ _ hh h⟩
  · simp [process_file, h]
  · unfold process_file
    cases env.readFile file_path with
    | none => rfl
    | some content =>
      cases get_document_by_path env store file_path with
      | none => exact buildDocs_eq_nil env file_path content h
      | some existing =>
        by_cases hc : existing.content_hash == env.contentHash content
        · simp [hc]
        · simp [hc, buildDocs_eq_nil env file_path content h]

/-- C2 witness: the amended behaviour at a concrete unreadable file. -/
theorem zero_doc_file_counted_skipped_witness :
    index_vault envUnreadable [] ["X.md"] 10 =
      Except.ok ({ processed := 0, errors := 0, skipped := 1, total_files := some 1 },
        ([] : Store)) :=
  (zero_doc_file_counted_skipped envUnreadable [] "X.md" rfl).2.2 rfl

/-! ## Claim C3 -/

/-- C3 counterexample: for the 3-character text `" a "` and `maxSize = 5`,
`chunk` returns the text unchanged, not the trimmed text `"a"`. -/
theorem small_text_not_trimmed :
    chunk_text (" a ".toList) 5 0 = [" a ".toList] ∧
    chunk_text (" a ".toList) 5 0 ≠ [pyStrip (" a ".toList)] := by
  refine ⟨by decide, by decide⟩

/-- C3 (amended): for every text with `len(text) ≤ maxSize`, `chunk` returns
exactly one chunk, and that chunk is the input text unchanged (surrounding
whitespace is not trimmed in this branch). -/
theorem chunk_small_text (text : List Char) (maxChunkSize overlap : Nat)
    (h : text.length ≤ maxChunkSize) :
    chunk_text text maxChunkSize overlap = [text] := by
  simp [chunk_text, chunkTextF, h]

/-- C3 witness: the amended claim at a concrete small text. -/
theorem chunk_small_text_witness :
    ("hi".toList).length ≤ 5 ∧ chunk_text ("hi".toList) 5 2 = ["hi".toList] :=
  ⟨by decide, chunk_small_text ("hi".toList) 5 2 (by decide)⟩

/-! ## Claim C4 -/

/-- C4: evaluation of the code at the failing input (a vault with zero
matching files).  The early-return result carries no `total_files` count
(modelled as `total_files = none`), even though every non-empty run does —
so the claim that every run's result contains all four counts is violated by
the empty-vault run. -/
theorem empty_vault_result_lacks_total_files :
    index_vault envTwoFiles [] [] 10 =
      Except.ok ({ processed := 0, errors := 0, skipped := 0, total_files := none },
        ([] : Store)) ∧
    (runSummary runOne).map RunResult.total_files = some (some 2) := by
  refine ⟨rfl, by decide⟩

/-! ## Claim C5 -/

/-- C5: evaluation of the code at the failing input (deleting a path from a
store that never indexed it).  `delete_document` returns `True` — Chroma's
`collection.delete` on an absent id is a silent no-op, so the `except`
branch that would return `False` never runs — contradicting the claim that
it returns false.  The lookup half of the claim does hold: a lookup of a
never-indexed path returns an explicit `None`. -/
theorem delete_never_indexed_returns_true :
    delete_document envTwoFiles [] "never-indexed.md" = (true, ([] : Store)) ∧
    get_document_by_path envTwoFiles [] "never-indexed.md" = none := by
  exact ⟨rfl, rfl⟩

/-! ## Claim C8 -/

/-- C8: if the embedding provider's health check fails, `index_vault` raises
`ConnectionError` before touching any file — the outcome is the same error
for every file list, and no store is produced; if the provider is healthy, a
missing embedding model never aborts the run (the run still returns a
result, whatever `modelExists` says). -/
theorem preflight_gate (env : Env) (store : Store) (files : List String)
    (bs : Nat) :
    (env.healthy = false →
      index_vault env store files bs =
        Except.error "Cannot connect to Ollama server" ∧
      ∀ files', index_vault env store files' bs =
        index_vault env store files bs) ∧
    (env.healthy = true → env.modelExists = false →
      ∃ r st, index_vault env store files bs = Except.ok (r, st)) := by
  constructor
  · intro h
    constructor
    · simp [index_vault, h]
    · intro files'; simp [index_vault, h]
  · intro hh _
    rw [index_vault]
    simp only [hh, if_true]
    by_cases he : files.isEmpty
    · simp [he]
    · simp [he]

/-- C8 witness: the preflight gate at a concrete unhealthy environment, and
a healthy run with the model reported missing. -/
theorem preflight_gate_witness :
    index_vault { envUnreadable with healthy := false } [] ["A.md"] 10 =
      Except.error "Cannot connect to Ollama server" ∧
    ∃ r st, index_vault { envUnreadable with modelExists := false } [] ["X.md"] 10 =
      Except.ok (r, st) :=
  ⟨((preflight_gate { envUnreadable with healthy := false } [] ["A.md"] 10).1 rfl).1,
    (preflight_gate { envUnreadable with modelExists := false } [] ["X.md"] 10).2 rfl rfl⟩

/-! ## Claim C9 -/

/-- C9: when the query's embedding comes back empty, the search route fails
with the defined "Failed to generate embedding for query" error; the vector
store query is never reached — the same failure results whatever the store
query would answer — and no empty-but-successful response is produced. -/
theorem search_empty_embedding_fails (env : Env) (store : Store)
    (q : List Char) (limit : Nat) (h : env.embed q = []) :
    api_search env store q limit =
      Except.error "Failed to generate embedding for query" ∧
    ∀ f, api_search { env with storeQuery := f } store q limit =
      Except.error "Failed to generate embedding for query" := by
  constructor
  · simp [api_search, h]
  · intro f; simp [api_search, h]

/-- C9 witness: the failure at a concrete environment whose embedding calls
all fail. -/
theorem search_empty_embedding_fails_witness :
    api_search envNoEmbed [] ("what is love".toList) 10 =
      Except.error "Failed to generate embedding for query" :=
  (search_empty_embedding_fails envNoEmbed [] ("what is love".toList) 10 rfl).1

/-! ## Claim C10 -/

/-- C10: when the batch write to the vector store fails, the file whose
chunks were in the batch stays counted in `processed` (= 1 here) while every
chunk-document of the batch is counted in `errors`; consequently
`processed + skipped + errors` exceeds `total_files`, because `errors` mixes
chunk counts into a file-count summary.  The store is left unchanged. -/
theorem batch_write_failure_accounting (env : Env) (store : Store)
    (file_path : String) (hh : env.healthy = true)
    (hd : (process_file env store file_path).isEmpty = false)
    (hf : env.batchFails (process_file env store file_path) = true) :
    index_vault env store [file_path] 10 =
      Except.ok
        ({ processed := 1
           errors := (process_file env store file_path).length
           skipped := 0
           total_files := some 1 }, store) ∧
    1 + 0 + (process_file env store file_path).length > 1 := by
  constructor
  · simp [index_vault, hh, toBatches_singleton, runBatch, foldFiles, hd, hf]
  · cases hp : process_file env store file_path with
    | nil => rw [hp] at hd; simp at hd
    | cons d ds => simp

/-- C10 witness: a single 1100-character file (two chunk-documents) with a
failing batch write: `processed = 1, errors = 2, skipped = 0,
total_files = 1`, and `1 + 0 + 2 > 1`. -/
theorem batch_write_failure_accounting_witness :
    runSummary (index_vault envBatchFail [] ["B.md"] 10) =
      some { processed := 1, errors := 2, skipped := 0, total_files := some 1 } ∧
    1 + 0 + 2 > 1 := by
  refine ⟨?_, by decide⟩
  rw [(batch_write_failure_accounting envBatchFail [] "B.md" rfl (by decide) rfl).1]
  decide

/-! ## Claim C7 -/

/-- C7: `_chunk_text` terminates for every finite text, every
`maxChunkSize > 0` and every overlap: the fuelled loop always completes
within `len(text) + 1` steps, because the next start — `end - overlap`
unless that fails to advance past the current start, else `end` — strictly
advances on every iteration. -/
theorem chunk_text_terminates (text : List Char) (maxChunkSize overlap : Nat)
    (hm : 0 < maxChunkSize) :
    (chunkTextF text maxChunkSize overlap).isSome = true ∧
    ∀ start, start < chunkNextStart text maxChunkSize overlap start :=
  ⟨chunkTextF_isSome text maxChunkSize overlap hm,
    fun start => lt_chunkNextStart text maxChunkSize overlap start hm⟩

/-- C7 witness: termination at a concrete text, with the degenerate
`overlap ≥ maxChunkSize` configuration. -/
theorem chunk_text_terminates_witness :
    0 < 2 ∧ (chunkTextF ("hello world, this is a test".toList) 2 5).isSome = true :=
  ⟨by decide, (chunk_text_terminates ("hello world, this is a test".toList) 2 5 (by decide)).1⟩

/-! ## More chunker lemmas, towards claim C6 -/

/-- Dropping a prefix never lengthens a list. -/
theorem length_dropWhile_le (p : Char → Bool) (l : List Char) :
    (l.dropWhile p).length ≤ l.length := by
  induction l with
  | nil => simp
  | cons a l ih =>
    rw [List.dropWhile_cons]
    split
    · exact Nat.le_trans ih (by simp)
    · simp

/-- Stripping never lengthens a list. -/
theorem pyStrip_length_le (l : List Char) : (pyStrip l).length ≤ l.length := by
  simp only [pyStrip, List.length_reverse]
  calc ((l.dropWhile isPySpace).reverse.dropWhile isPySpace).length
      ≤ (l.dropWhile isPySpace).reverse.length := length_dropWhile_le _ _
    _ = (l.dropWhile isPySpace).length := List.length_reverse _
    _ ≤ l.length := length_dropWhile_le _ _

/-- A list that strips to nothing is all whitespace. -/
theorem pyStrip_eq_nil_all_space {l : List Char} (h : pyStrip l = []) :
    ∀ c ∈ l, isPySpace c = true := by
  intro c hc
  have h1 : (l.dropWhile isPySpace).reverse.dropWhile isPySpace = [] := by
    simpa [pyStrip, List.reverse_eq_nil_iff] using h
  have h2 := List.dropWhile_eq_nil_iff.mp h1
  have h3 : ∀ x ∈ l.dropWhile isPySpace, isPySpace x = true := by
    intro x hx
    exact h2 x (List.mem_reverse.mpr hx)
  have hsplit : c ∈ l.takeWhile isPySpace ++ l.dropWhile isPySpace := by
    rw [List.takeWhile_append_dropWhile]
    exact hc
  rcases List.mem_append.mp hsplit with h4 | h4
  · exact List.mem_takeWhile_imp h4
  · exact h3 c h4

/-- The character at a position inside a window is a member of the window's
slice. -/
theorem getD_mem_pySlice (text : List Char) (w1 w2 i : Nat)
    (h1 : w1 ≤ i) (h2 : i < w2) (h3 : i < text.length) :
    text.getD i ' ' ∈ pySlice text w1 w2 := by
  have hlen : i - w1 < (pySlice text w1 w2).length := by
    simp only [pySlice, List.length_take, List.length_drop]
    omega
  have hget : (pySlice text w1 w2)[i - w1] = text[i] := by
    simp only [pySlice]
    rw [List.getElem_take, List.getElem_drop]
    congr 1
    omega
  rw [List.getD_eq_getElem text ' ' h3, ← hget]
  exact List.getElem_mem hlen

/-- The instrumented loop completes within the fuel, every window it records
starts inside the text and ends at the computed cut, and together the
windows cover every position from `start` to the end of the text. -/
theorem chunkIters_spec (text : List Char) (m o : Nat) (hm : 0 < m) :
    ∀ (fuel start : Nat), text.length - start < fuel →
      ∃ ws, chunkIters fuel text m o start = some ws ∧
        (∀ w ∈ ws, w.1 < text.length ∧ w.2 = chunkEnd text m w.1) ∧
        (∀ i, start ≤ i → i < text.length → ∃ w ∈ ws, w.1 ≤ i ∧ i < w.2) := by
  intro fuel
  induction fuel with
  | zero => intro start h; omega
  | succ n ih =>
    intro start h
    simp only [chunkIters]
    by_cases hlt : start < text.length
    · rw [if_pos hlt]
      obtain ⟨ws, hws, hprop, hcov⟩ := ih (chunkNextStart text m o start)
        (by have := lt_chunkNextStart text m o start hm; omega)
      refine ⟨(start, chunkEnd text m start) :: ws, by rw [hws]; rfl, ?_, ?_⟩
      · intro w hw
        rcases List.mem_cons.mp hw with h1 | h2
        · rw [h1]
          exact ⟨hlt, rfl⟩
        · exact hprop w h2
      · intro i hsi hilen
        by_cases hie : i < chunkEnd text m start
        · exact ⟨(start, chunkEnd text m start), List.mem_cons_self _ _, hsi, hie⟩
        · obtain ⟨w, hwmem, hw1, hw2⟩ := hcov i
            (by have hle := chunkNextStart_le text m o start; omega) hilen
          exact ⟨w, List.mem_cons_of_mem _ hwmem, hw1, hw2⟩
    · rw [if_neg hlt]
      exact ⟨[], rfl, by simp, fun i hsi hilen => absurd hilen (by omega)⟩

/-- The chunking loop is the instrumented loop with each window replaced by
its kept chunk. -/
theorem chunkLoop_eq_chunkIters (text : List Char) (m o : Nat) :
    ∀ (fuel start : Nat) (acc : List (List Char)),
      chunkLoop fuel text m o start acc =
        (chunkIters fuel text m o start).map
          (fun ws => acc ++ ws.filterMap (keepChunk text)) := by
  intro fuel
  induction fuel with
  | zero => intro start acc; rfl
  | succ n ih =>
    intro start acc
    simp only [chunkLoop, chunkIters]
    by_cases hlt : start < text.length
    · rw [if_pos hlt, if_pos hlt, ih]
      cases hws : chunkIters n text m o (chunkNextStart text m o start) with
      | none => rfl
      | some ws =>
        simp only [Option.map_some', List.filterMap_cons]
        by_cases hemp : (pyStrip (pySlice text start (chunkEnd text m start))).isEmpty
        · simp [keepChunk, hemp]
        · simp [keepChunk, hemp]
    · rw [if_neg hlt, if_neg hlt]
      simp

/-! ## Claim C6 -/

/-- C6 counterexample: for `"ab   "` with `maxSize = 2, overlap = 0` the
produced chunks are `["ab"]`, whose pre-trim slice is the single window
`[0, 2)`; position 2 of the 5-character text is covered by no kept chunk's
slice — the whitespace-only windows `[2, 4)` and `[4, 6)` were dropped — so
the kept chunks' slices do not cover the original text. -/
theorem chunk_cover_gap_counterexample :
    chunk_text ("ab   ".toList) 2 0 = [['a', 'b']] ∧
    ¬ (∀ i, i < ("ab   ".toList).length →
        ∃ w ∈ keptWindows ("ab   ".toList) 2 0, w.1 ≤ i ∧ i < w.2) := by
  refine ⟨by decide, by decide⟩

/-- C6 (amended): for text longer than a positive `maxChunkSize`, every
produced chunk has length ≤ `maxChunkSize` and is non-empty after trimming;
the traversed windows (dropped ones included) cover the whole text with no
gap, and every *non-whitespace* position is covered by a kept chunk's
pre-trim slice — only all-whitespace stretches can fall outside every kept
slice, because a window is dropped exactly when its slice strips to
nothing. -/
theorem chunk_long_text_props (text : List Char) (m o : Nat)
    (hm : 0 < m) (hlen : m < text.length) :
    (∀ c ∈ chunk_text text m o, c.length ≤ m ∧ c ≠ []) ∧
    (∃ ws, chunkIters (text.length + 1) text m o 0 = some ws ∧
      chunk_text text m o = ws.filterMap (keepChunk text) ∧
      (∀ i, i < text.length → ∃ w ∈ ws, w.1 ≤ i ∧ i < w.2) ∧
      (∀ i, i < text.length → isPySpace (text.getD i ' ') = false →
        ∃ w ∈ keptWindows text m o, w.1 ≤ i ∧ i < w.2)) := by
  obtain ⟨ws, hws, hprop, hcov⟩ :=
    chunkIters_spec text m o hm (text.length + 1) 0 (by omega)
  have hnotle : ¬ text.length ≤ m := by omega
  have hchunk : chunk_text text m o = ws.filterMap (keepChunk text) := by
    unfold chunk_text chunkTextF
    rw [if_neg hnotle, chunkLoop_eq_chunkIters, hws]
    rfl
  have hkept : keptWindows text m o = ws.filter (fun w => (keepChunk text w).isSome) := by
    unfold keptWindows
    rw [hws]
    rfl
  refine ⟨?_, ws, hws, hchunk, fun i hi => hcov i (Nat.zero_le i) hi, ?_⟩
  · intro c hc
    rw [hchunk] at hc
    obtain ⟨w, hwmem, hkeep⟩ := List.mem_filterMap.mp hc
    unfold keepChunk at hkeep
    by_cases hemp : (pyStrip (pySlice text w.1 w.2)).isEmpty
    · rw [if_pos hemp] at hkeep
      cases hkeep
    · rw [if_neg hemp] at hkeep
      injection hkeep with hkeep
      constructor
      · rw [← hkeep]
        have hb1 : (pyStrip (pySlice text w.1 w.2)).length ≤ (pySlice text w.1 w.2).length :=
          pyStrip_length_le _
        have hb2 : (pySlice text w.1 w.2).length ≤ w.2 - w.1 := by
          simp [pySlice, List.length_take_le]
        have hb3 : w.2 ≤ w.1 + m := (hprop w hwmem).2 ▸ chunkEnd_le text m w.1
        omega
      · rw [← hkeep]
        intro hnil
        exact hemp (by rw [hnil]; rfl)
  · intro i hi hns
    obtain ⟨w, hwmem, hw1, hw2⟩ := hcov i (Nat.zero_le i) hi
    cases hk : keepChunk text w with
    | some c =>
      refine ⟨w, ?_, hw1, hw2⟩
      rw [hkept]
      exact List.mem_filter.mpr ⟨hwmem, by rw [hk]; rfl⟩
    | none =>
      exfalso
      unfold keepChunk at hk
      by_cases hemp : (pyStrip (pySlice text w.1 w.2)).isEmpty
      · have hnil : pyStrip (pySlice text w.1 w.2) = [] := List.isEmpty_iff.mp hemp
        have hall := pyStrip_eq_nil_all_space hnil
        have hmem := getD_mem_pySlice text w.1 w.2 i hw1 hw2 hi
        rw [hall _ hmem] at hns
        cases hns
      · rw [if_neg hemp] at hk
        cases hk

/-- C6 witness: the amended bounds at a concrete long text. -/
theorem chunk_long_text_props_witness :
    0 < 2 ∧ 2 < ("one. two three".toList).length ∧
    ∀ c ∈ chunk_text ("one. two three".toList) 2 0, c.length ≤ 2 ∧ c ≠ [] :=
  ⟨by decide, by decide,
    (chunk_long_text_props ("one. two three".toList) 2 0 (by decide) (by decide)).1⟩

end ObsidianVS
